import Mathlib

/-!
# Verification development for `hwcomposer.cpp`

A shallow embedding of the sample hardware-composer HAL module
(`src/hwcomposer.cpp`): the layer classifier `hwc_prepare`, the frame
presenter `hwc_set`, the vsync generator (`hwc_eventControl`,
`vsync_loop`, `systemTime`) and the device lifecycle (`hwc_device_open`,
`hwc_registerProcs`).

Conventions of the embedding.

* C pointers that may be null are `Option`; dereferencing `none` is a
  `Fault`.  Fallible code returns `Except Fault _`.
* A C array together with its element count is a `List`
  (`numHwLayers` is the length of `hwLayers`).
* External calls (`eglSwapBuffers`, `clock_gettime`, `malloc`,
  `hw_get_module`, `framebuffer_open`, `open`, `mmap`) are not part of the
  module; their results are parameters of the functions that call them.
* File-scope variables (`created`, `vsync_enabled`) and the observable
  effects (threads created, callbacks invoked, placeholder writes) are
  fields of explicit state records.
* Constants that the source takes from the platform headers
  (`hardware/hwcomposer_defs.h`, `errno.h`, `EGL/egl.h`) carry the header's
  value.
-/

namespace Hwcomposer

/-! ## Constants from the platform headers -/

/-- Composition type `HWC_FRAMEBUFFER` (`hwcomposer_defs.h`). -/
def HWC_FRAMEBUFFER : Int := 0
/-- Composition type `HWC_OVERLAY` (`hwcomposer_defs.h`). -/
def HWC_OVERLAY : Int := 1
/-- Composition type `HWC_BACKGROUND` (`hwcomposer_defs.h`). -/
def HWC_BACKGROUND : Int := 2
/-- Composition type `HWC_FRAMEBUFFER_TARGET` (`hwcomposer_defs.h`). -/
def HWC_FRAMEBUFFER_TARGET : Int := 3
/-- Frame flag `HWC_GEOMETRY_CHANGED` (`hwcomposer_defs.h`). -/
def HWC_GEOMETRY_CHANGED : Nat := 0x00000001
/-- Blending mode `HWC_BLENDING_NONE` (`hwcomposer_defs.h`); the source's
`dump_layer` prints `BLENDING_NONE` for the same value `0x100`. -/
def HWC_BLENDING_NONE : Int := 0x0100
/-- Blending mode `HWC_BLENDING_PREMULT` (`hwcomposer_defs.h`). -/
def HWC_BLENDING_PREMULT : Int := 0x0105
/-- Blending mode `HWC_BLENDING_COVERAGE` (`hwcomposer_defs.h`). -/
def HWC_BLENDING_COVERAGE : Int := 0x0405
/-- Error code `HWC_EGL_ERROR` (`hwcomposer_defs.h`). -/
def HWC_EGL_ERROR : Int := -1
/-- Event kind `HWC_EVENT_VSYNC` (`hwcomposer_defs.h`). -/
def HWC_EVENT_VSYNC : Int := 0
/-- Display id `HWC_DISPLAY_PRIMARY` (`hwcomposer_defs.h`). -/
def HWC_DISPLAY_PRIMARY : Int := 0
/-- Device name `HWC_HARDWARE_COMPOSER` (`hwcomposer.h`). -/
def HWC_HARDWARE_COMPOSER : String := "composer"
/-- Value of `EINVAL`, "Invalid argument" (`errno.h`). -/
def EINVAL : Int := 22
/-- Value of `ENODEV`, "No such device" (`errno.h`). -/
def ENODEV : Int := 19
/-- Value of `EGL_FALSE` (`EGL/egl.h`). -/
def EGL_FALSE : Nat := 0
/-- Value of `EGL_TRUE` (`EGL/egl.h`). -/
def EGL_TRUE : Nat := 1
/-- Value of `HARDWARE_DEVICE_TAG`, the tag `HWDT` (`hardware.h`). -/
def HARDWARE_DEVICE_TAG : Nat := 0x48574454
/-- Value of `HWC_DEVICE_API_VERSION_1_0` (`hwcomposer_defs.h`). -/
def HWC_DEVICE_API_VERSION_1_0 : Nat := 0x01000001

/-! ## Data model -/

/-- Ways in which the C code can go wrong at run time. -/
inductive Fault where
  | nullDeref
  | outOfBounds
  deriving DecidableEq, Repr

/-- The rectangle type `hwc_rect_t`. -/
structure hwc_rect_t where
  left : Int
  top : Int
  right : Int
  bottom : Int
  deriving DecidableEq, Repr

/-- The fields of `hwc_layer_1_t` that the source reads or writes
(all of them appear in `dump_layer`). `handle` is the buffer handle
pointer, kept as an address. -/
structure hwc_layer_1_t where
  compositionType : Int
  flags : Nat
  handle : Nat
  transform : Nat
  blending : Int
  sourceCrop : hwc_rect_t
  displayFrame : hwc_rect_t
  deriving DecidableEq, Repr

/-- The fields of `hwc_display_contents_1_t` that the source uses: the
display/surface pair, the frame flags and the layer array
(`numHwLayers` is `hwLayers.length`). -/
structure hwc_display_contents_1_t where
  dpy : Nat
  sur : Nat
  flags : Nat
  hwLayers : List hwc_layer_1_t
  deriving DecidableEq, Repr

/-- The argument `hwc_display_contents_1_t** displays`: a possibly null
pointer to an array of possibly null pointers to frames. -/
abbrev DisplayList := Option (List (Option hwc_display_contents_1_t))

/-- Accessor for `numHwLayers`. -/
def hwc_display_contents_1_t.numHwLayers (d : hwc_display_contents_1_t) : Nat :=
  d.hwLayers.length

/-- The dereference `displays[0]->...` of a non-null `displays`. -/
def deref0 (ds : List (Option hwc_display_contents_1_t)) :
    Except Fault hwc_display_contents_1_t :=
  match ds with
  | [] => .error .outOfBounds
  | none :: _ => .error .nullDeref
  | some d :: _ => .ok d

/-- The store `displays[0] = d` through the (already dereferenced) pointer. -/
def store0 (ds : List (Option hwc_display_contents_1_t))
    (d : hwc_display_contents_1_t) : List (Option hwc_display_contents_1_t) :=
  match ds with
  | [] => []
  | _ :: rest => some d :: rest

/-! ## Layer classifier: `hwc_prepare` -/

/-- The assignment `hwLayers[i].compositionType = c`. -/
def setCompositionType : List hwc_layer_1_t → Nat → Int → List hwc_layer_1_t
  | [], _, _ => []
  | l :: ls, 0, c => { l with compositionType := c } :: ls
  | l :: ls, i + 1, c => l :: setCompositionType ls i c

/-- The condition `displays[0]->hwLayers[0].blending == HWC_BLENDING_NONE`. -/
def firstBlendingNone (hwLayers : List hwc_layer_1_t) : Bool :=
  match hwLayers with
  | [] => false
  | l :: _ => l.blending == HWC_BLENDING_NONE

/-- Body of the `for` loop of `hwc_prepare` at index `i` (source lines
110-118; `dump_layer` only logs). -/
def hwc_prepare_body (hwLayers : List hwc_layer_1_t) (i : Nat) : List hwc_layer_1_t :=
  if i = 0 ∧ firstBlendingNone hwLayers = true then
    setCompositionType hwLayers 0 HWC_OVERLAY
  else
    setCompositionType hwLayers i HWC_FRAMEBUFFER

/-- The loop `for (size_t i=0 ; i<displays[0]->numHwLayers ; i++)` of
`hwc_prepare`. -/
def hwc_prepare_loop (hwLayers : List hwc_layer_1_t) : List hwc_layer_1_t :=
  (List.range hwLayers.length).foldl hwc_prepare_body hwLayers

/-- The function `hwc_prepare` (source lines 105-122). Returns the status
and the display list after the call. `dev` and `numDisplays` are unused by
the source. -/
def hwc_prepare (dev : Nat) (numDisplays : Nat) (displays : DisplayList) :
    Except Fault (Int × DisplayList) :=
  match displays with
  | none => .ok (0, none)
  | some ds =>
    match deref0 ds with
    | .error e => .error e
    | .ok d =>
      if d.flags &&& HWC_GEOMETRY_CHANGED ≠ 0 then
        .ok (0, some (store0 ds { d with hwLayers := hwc_prepare_loop d.hwLayers }))
      else
        .ok (0, some ds)

/-! ## Device context -/

/-- The functions of this module that `hwc_device_open` installs in the
function table. -/
inductive EntryPoint where
  | hwc_device_close
  | hwc_prepare
  | hwc_set
  | hwc_eventControl
  | hwc_blank
  | hwc_query
  | hwc_registerProcs
  | hwc_dump
  | hwc_getDisplayConfigs
  | hwc_getDisplayAttributes
  deriving DecidableEq, Repr

/-- The fields of `hw_module_t` that the source reads. -/
structure hw_module_t where
  name : String
  deriving DecidableEq, Repr

/-- The function table `hwc_composer_device_1_t`, with the fields of
`common` flattened (`tag`, `version`, `module`, `close`). A null function
pointer is `none`. -/
structure hwc_composer_device_1_t where
  tag : Nat
  version : Nat
  module : Nat
  close : Option EntryPoint
  prepare : Option EntryPoint
  set : Option EntryPoint
  eventControl : Option EntryPoint
  blank : Option EntryPoint
  query : Option EntryPoint
  registerProcs : Option EntryPoint
  dump : Option EntryPoint
  getDisplayConfigs : Option EntryPoint
  getDisplayAttributes : Option EntryPoint
  deriving DecidableEq, Repr

/-- The context `struct hwc_context_t` (source lines 45-53). `procs` is the
address of the registered callback table, `framebuffer` the address of the
framebuffer device, `mappedAddress` the bytes of the mapped region
(`none` when there is no mapping). -/
structure hwc_context_t where
  device : hwc_composer_device_1_t
  procs : Option Nat
  gralloc : Option hw_module_t
  framebuffer : Option Nat
  fd : Int
  mappedAddress : Option (List Nat)
  deriving DecidableEq, Repr

/-- The context after `memset(dev, 0, sizeof(*dev))`. -/
def zeroContext : hwc_context_t :=
  { device :=
      { tag := 0, version := 0, module := 0, close := none, prepare := none, set := none,
        eventControl := none, blank := none, query := none, registerProcs := none,
        dump := none, getDisplayConfigs := none, getDisplayAttributes := none }
    procs := none
    gralloc := none
    framebuffer := none
    fd := 0
    mappedAddress := none }

/-! ## Frame presenter: `hwc_set` -/

/-- The call `memset(s, c, n)` on a mapped region holding the bytes `region`;
writing past the end of the region is a fault. -/
def memset (region : Option (List Nat)) (c : Nat) (n : Nat) : Except Fault (List Nat) :=
  match region with
  | none => .error .nullDeref
  | some bytes =>
    if n ≤ bytes.length then .ok (List.replicate n (c % 256) ++ bytes.drop n)
    else .error .outOfBounds

/-- What `hwc_set` leaves behind: the returned status, the context (with its
mapped surface), the display list, and the indices `i` for which the
placeholder write of source line 145 was executed, in execution order
(these are the indices logged at source line 143). -/
structure SetOutcome where
  status : Int
  ctx : hwc_context_t
  displays : DisplayList
  writes : List Nat
  deriving DecidableEq, Repr

/-- Body of the `for` loop of `hwc_set` at index `i` (source lines 142-146),
acting on the context and the list of writes made so far. -/
def hwc_set_body (hwLayers : List hwc_layer_1_t) (st : hwc_context_t × List Nat) (i : Nat) :
    Except Fault (hwc_context_t × List Nat) :=
  match hwLayers[i]? with
  | none => .error .outOfBounds
  | some l =>
    if l.compositionType = HWC_OVERLAY then
      match memset st.1.mappedAddress 0x80 2000 with
      | .error e => .error e
      | .ok bytes => .ok ({ st.1 with mappedAddress := some bytes }, st.2 ++ [i])
    else .ok st

/-- The loop `for (int i = 0; i < displays[0]->numHwLayers; i++)` of
`hwc_set`. The `int` index runs over `0 .. numHwLayers - 1`; a layer array
has fewer than `2 ^ 31` entries, so the index does not overflow. -/
def hwc_set_loop (hwLayers : List hwc_layer_1_t) (ctx : hwc_context_t) :
    Except Fault (hwc_context_t × List Nat) :=
  (List.range hwLayers.length).foldlM (hwc_set_body hwLayers) (ctx, [])

/-- The function `hwc_set` (source lines 124-151). `ctx` is the context
behind `dev`; `eglSwapBuffers` is the external swap, applied to the frame's
display/surface pair. `numDisplays` is unused by the source. -/
def hwc_set (ctx : hwc_context_t) (numDisplays : Nat) (displays : DisplayList)
    (eglSwapBuffers : Nat → Nat → Nat) : Except Fault SetOutcome :=
  match displays with
  | none => .error .nullDeref
  | some ds =>
    match deref0 ds with
    | .error e => .error e
    | .ok d =>
      let sucess := eglSwapBuffers d.dpy d.sur
      if sucess = 0 then
        .ok { status := HWC_EGL_ERROR, ctx := ctx, displays := displays, writes := [] }
      else
        match hwc_set_loop d.hwLayers ctx with
        | .error e => .error e
        | .ok (ctx1, writes) =>
          .ok { status := 0, ctx := ctx1, displays := displays, writes := writes }

/-! ## Vsync generator: `systemTime`, `hwc_eventControl`, `vsync_loop` -/

/-- Conversion to `int64_t` (two's complement wrap-around). -/
def toInt64 (x : Int) : Int := (x + 2 ^ 63) % 2 ^ 64 - 2 ^ 63

/-- Conversion to `uint64_t`. -/
def toUInt64 (x : Int) : Int := x % 2 ^ 64

/-- The value `struct timespec` filled in by `clock_gettime`. -/
structure timespec where
  tv_sec : Int
  tv_nsec : Int
  deriving DecidableEq, Repr

/-- The function `systemTime` (source lines 165-171), given the reading `t`
that `clock_gettime(CLOCK_MONOTONIC, &t)` stores. -/
def systemTime (t : timespec) : Int :=
  toInt64 (toInt64 t.tv_sec * 1000000000 + t.tv_nsec)

/-- One invocation `procs->vsync(procs, disp, timestamp)` of the registered
callback. -/
structure VsyncCall where
  procs : Nat
  disp : Int
  timestamp : Int
  deriving DecidableEq, Repr

/-- The state shared by `hwc_eventControl` and `vsync_loop`: the device
context, the file-scope variables `created` and `vsync_enabled`, and the
effects so far: the number of `pthread_create(.., vsync_loop, ..)` calls,
the number of completed loop iterations and the callback invocations in
delivery order. -/
structure World where
  ctx : hwc_context_t
  created : Bool
  vsync_enabled : Int
  threads : Nat
  iterations : Nat
  delivered : List VsyncCall
  deriving DecidableEq, Repr

/-- The process state right after the device has been opened: the
initialisers of source lines 175 and 177, no thread, nothing delivered. -/
def World.initial (ctx : hwc_context_t) : World :=
  { ctx := ctx, created := false, vsync_enabled := 0, threads := 0, iterations := 0,
    delivered := [] }

/-- The function `hwc_eventControl` (source lines 179-196). -/
def hwc_eventControl (w : World) (dpy : Int) (event : Int) (enable : Int) : Int × World :=
  if event = HWC_EVENT_VSYNC then
    let w1 := { w with vsync_enabled := enable }
    if !w1.created then
      (0, { w1 with created := true, threads := w1.threads + 1 })
    else
      (0, w1)
  else
    (0, w)

/-- One pass through the body of the `do .. while (true)` of `vsync_loop`
(source lines 203-208); `clock` is the clock reading taken by
`systemTime()` after the `usleep`. -/
def vsync_loop_iter (w : World) (clock : timespec) : Except Fault World :=
  let dpy := HWC_DISPLAY_PRIMARY
  let cur_timestamp := toUInt64 (systemTime clock)
  if w.vsync_enabled ≠ 0 then
    match w.ctx.procs with
    | none => .error .nullDeref
    | some procs =>
      .ok { w with
            iterations := w.iterations + 1
            delivered := w.delivered ++ [⟨procs, dpy, toInt64 cur_timestamp⟩] }
  else
    .ok { w with iterations := w.iterations + 1 }

/-- The function `hwc_registerProcs` (source lines 228-244); `dev` may be
null. -/
def hwc_registerProcs (dev : Option hwc_context_t) (procs : Option Nat) :
    Option hwc_context_t :=
  match dev with
  | none => none
  | some ctx => some { ctx with procs := procs }

/-- The steps of the vsync subsystem: a request through `hwc_eventControl`,
or one iteration of the background loop with the clock reading it takes. -/
inductive Step where
  | eventControl (dpy : Int) (event : Int) (enable : Int)
  | loopIter (clock : timespec)
  deriving DecidableEq, Repr

/-- One step. A loop iteration takes place only when a loop has been
started. -/
def step (w : World) : Step → Except Fault World
  | .eventControl dpy event enable => .ok (hwc_eventControl w dpy event enable).2
  | .loopIter clock => if w.threads = 0 then .ok w else vsync_loop_iter w clock

/-- A finite run: the steps taken in order, stopping at the first fault. -/
def run (w : World) : List Step → Except Fault World
  | [] => .ok w
  | s :: ss =>
    match step w s with
    | .error e => .error e
    | .ok w1 => run w1 ss

/-! ## Device lifecycle: `hwc_device_open` -/

/-- The external calls made by `hwc_device_open`. -/
inductive ExtCall where
  | malloc
  | hw_get_module
  | framebuffer_open
  | open_fb0
  | mmap
  deriving DecidableEq, Repr

/-- What the platform answers to the external calls of `hwc_device_open`:
whether `malloc` returns memory, the status of `hw_get_module` and the
module it stores (if any), the status of `framebuffer_open` and the device
it stores (if any), the descriptor returned by `open`, and the region
returned by `mmap` (`none` for `MAP_FAILED`). -/
structure OpenEnv where
  malloc : Bool
  hw_get_module : Int × Option hw_module_t
  framebuffer_open : Int × Option Nat
  open_fb0 : Int
  mmap : Option (List Nat)
  deriving DecidableEq, Repr

/-- What `hwc_device_open` leaves behind: the returned status, the content
of the caller's `*device`, and the external calls made, in order. -/
structure OpenOutcome where
  status : Int
  device : Option hwc_context_t
  calls : List ExtCall
  deriving DecidableEq, Repr

/-- The function `hwc_device_open` (source lines 265-332). `device` is the
content of the caller's output pointer before the call. The inline
`framebuffer_open` dereferences its module argument. -/
def hwc_device_open (env : OpenEnv) (module : Nat) (name : String)
    (device : Option hwc_context_t) : Except Fault OpenOutcome :=
  let status : Int := -EINVAL
  if name = HWC_HARDWARE_COMPOSER then
    if env.malloc = false then .error .nullDeref
    else
      let dev := zeroContext
      let gralloc := env.hw_get_module.2
      match gralloc with
      | none => .error .nullDeref
      | some _ =>
        let framebuffer := env.framebuffer_open.2
        let dev := { dev with
          device :=
            { tag := HARDWARE_DEVICE_TAG
              version := HWC_DEVICE_API_VERSION_1_0
              module := module
              close := some .hwc_device_close
              prepare := some .hwc_prepare
              set := some .hwc_set
              eventControl := some .hwc_eventControl
              blank := some .hwc_blank
              query := some .hwc_query
              registerProcs := some .hwc_registerProcs
              dump := some .hwc_dump
              getDisplayConfigs := some .hwc_getDisplayConfigs
              getDisplayAttributes := some .hwc_getDisplayAttributes } }
        let dev := { dev with framebuffer := framebuffer, gralloc := gralloc }
        let dev := { dev with fd := env.open_fb0 }
        let dev := { dev with mappedAddress := env.mmap }
        .ok { status := 0, device := some dev,
              calls := [.malloc, .hw_get_module, .framebuffer_open, .open_fb0, .mmap] }
  else
    .ok { status := status, device := device, calls := [] }

/-! ## Auxiliary definitions used in the statements -/

/-- The disposition that the classifier gives to layer `l` at index `i`. -/
def classify (i : Nat) (l : hwc_layer_1_t) : hwc_layer_1_t :=
  { l with
    compositionType :=
      if i = 0 ∧ l.blending = HWC_BLENDING_NONE then HWC_OVERLAY else HWC_FRAMEBUFFER }

/-- A frame with three layers (blending none, premultiplied, none) and
stale composition types, geometry-changed flag set. -/
def sampleFrame : hwc_display_contents_1_t :=
  { dpy := 1, sur := 2, flags := 1,
    hwLayers :=
      [ { compositionType := 3, flags := 0, handle := 10, transform := 0,
          blending := HWC_BLENDING_NONE,
          sourceCrop := ⟨0, 0, 800, 480⟩, displayFrame := ⟨0, 0, 800, 480⟩ },
        { compositionType := 1, flags := 0, handle := 11, transform := 0,
          blending := HWC_BLENDING_PREMULT,
          sourceCrop := ⟨0, 0, 100, 50⟩, displayFrame := ⟨10, 10, 110, 60⟩ },
        { compositionType := 2, flags := 0, handle := 12, transform := 0,
          blending := HWC_BLENDING_NONE,
          sourceCrop := ⟨0, 0, 20, 20⟩, displayFrame := ⟨5, 5, 25, 25⟩ } ] }

/-- Whether the layer at index `i` exists and is marked `HWC_OVERLAY`. -/
def isOverlayAt (ls : List hwc_layer_1_t) (i : Nat) : Bool :=
  match ls[i]? with
  | some l => decide (l.compositionType = HWC_OVERLAY)
  | none => false

/-- The indices of the layers marked `HWC_OVERLAY`, in increasing order. -/
def overlayIndices (ls : List hwc_layer_1_t) : List Nat :=
  (List.range ls.length).filter (isOverlayAt ls)

/-- The surface after the placeholder write: `0x80` in the first 2000
bytes, the old content behind them. -/
def placeholder (bytes : List Nat) : List Nat :=
  List.replicate 2000 0x80 ++ bytes.drop 2000

/-- A mapped surface of 2004 bytes, each holding `7`. -/
def sampleSurface : List Nat := List.replicate 2004 7

/-- A context with descriptor 3 and the sample surface mapped. -/
def sampleContext : hwc_context_t :=
  { zeroContext with fd := 3, mappedAddress := some sampleSurface }

/-- The sample frame after classification: composition types
`[HWC_OVERLAY, HWC_FRAMEBUFFER, HWC_FRAMEBUFFER]`. -/
def sampleClassified : hwc_display_contents_1_t :=
  { sampleFrame with hwLayers := hwc_prepare_loop sampleFrame.hwLayers }

/-- A sequence of `hwc_eventControl` calls `(dpy, event, enable)`, made one
after the other. -/
def eventControlCalls (w : World) (calls : List (Int × Int × Int)) : World :=
  calls.foldl (fun w c => (hwc_eventControl w c.1 c.2.1 c.2.2).2) w

/-- The statuses returned by a sequence of `hwc_eventControl` calls. -/
def eventControlStatuses : World → List (Int × Int × Int) → List Int
  | _, [] => []
  | w, c :: cs =>
    (hwc_eventControl w c.1 c.2.1 c.2.2).1 ::
      eventControlStatuses (hwc_eventControl w c.1 c.2.1 c.2.2).2 cs

/-- Whether a step is a vsync enable request: `hwc_eventControl` with event
`HWC_EVENT_VSYNC` and a nonzero `enable`. -/
def Step.isVsyncEnable : Step → Bool
  | .eventControl _ event enable => decide (event = HWC_EVENT_VSYNC ∧ enable ≠ 0)
  | .loopIter _ => false

/-- The number of loop-iteration steps in a list of steps. -/
def countIter : List Step → Nat
  | [] => 0
  | .eventControl _ _ _ :: ss => countIter ss
  | .loopIter _ :: ss => countIter ss + 1

/-- The clock readings taken by the loop iterations of a list of steps, in
order. -/
def clockReadings : List Step → List timespec
  | [] => []
  | .eventControl _ _ _ :: ss => clockReadings ss
  | .loopIter t :: ss => t :: clockReadings ss

/-- The order of time on clock readings. -/
def timespecLt (a b : timespec) : Prop :=
  a.tv_sec < b.tv_sec ∨ (a.tv_sec = b.tv_sec ∧ a.tv_nsec < b.tv_nsec)

instance (a b : timespec) : Decidable (timespecLt a b) := by
  unfold timespecLt
  infer_instance

/-- A normalised clock reading whose nanosecond count fits `int64_t`. -/
def clockValid (t : timespec) : Prop :=
  0 ≤ t.tv_sec ∧ 0 ≤ t.tv_nsec ∧ t.tv_nsec < 1000000000 ∧
    t.tv_sec * 1000000000 + t.tv_nsec < 2 ^ 63

instance (t : timespec) : Decidable (clockValid t) := by
  unfold clockValid
  infer_instance

/-- The invariant linking the thread count to the `created` flag. -/
def threadInv (w : World) : Prop :=
  w.threads = if w.created then 1 else 0

/-- The sample context after `hwc_registerProcs` has stored the callback
table at address 77. -/
def registeredContext : hwc_context_t :=
  { sampleContext with procs := some 77 }

/-- A run that enables vsync, iterates, disables, iterates twice, enables
again and iterates; the clock advances by one second per iteration. -/
def sampleRun : List Step :=
  [ .eventControl 0 HWC_EVENT_VSYNC 1, .loopIter ⟨1, 0⟩,
    .eventControl 0 HWC_EVENT_VSYNC 0, .loopIter ⟨2, 0⟩, .loopIter ⟨3, 0⟩,
    .eventControl 0 HWC_EVENT_VSYNC 1, .loopIter ⟨4, 500⟩ ]

/-- A platform on which every external call of `hwc_device_open` succeeds. -/
def sampleEnv : OpenEnv :=
  { malloc := true
    hw_get_module := (0, some ⟨"gralloc"⟩)
    framebuffer_open := (0, some 5)
    open_fb0 := 3
    mmap := some sampleSurface }

/-- The function table that `hwc_device_open` installs for module `module`. -/
def installedTable (module : Nat) : hwc_composer_device_1_t :=
  { tag := HARDWARE_DEVICE_TAG
    version := HWC_DEVICE_API_VERSION_1_0
    module := module
    close := some .hwc_device_close
    prepare := some .hwc_prepare
    set := some .hwc_set
    eventControl := some .hwc_eventControl
    blank := some .hwc_blank
    query := some .hwc_query
    registerProcs := some .hwc_registerProcs
    dump := some .hwc_dump
    getDisplayConfigs := some .hwc_getDisplayConfigs
    getDisplayAttributes := some .hwc_getDisplayAttributes }

/-- The context that `hwc_device_open` builds on the sample platform; its
`procs` field is still null. -/
def openedContext : hwc_context_t :=
  { device := installedTable 0
    procs := none
    gralloc := some ⟨"gralloc"⟩
    framebuffer := some 5
    fd := 3
    mappedAddress := some sampleSurface }

/-- The order of time on clock readings, equal readings allowed: what a
monotonic clock guarantees of two successive readings. -/
def timespecLe (a b : timespec) : Prop :=
  a.tv_sec < b.tv_sec ∨ (a.tv_sec = b.tv_sec ∧ a.tv_nsec ≤ b.tv_nsec)

instance (a b : timespec) : Decidable (timespecLe a b) := by
  unfold timespecLe
  infer_instance

/-- The clock reading of a step that delivers a callback from state `w`: a
loop iteration, with a loop started, that finds `vsync_enabled` nonzero. -/
def deliveringNow (w : World) : Step → List timespec
  | .eventControl _ _ _ => []
  | .loopIter t => if w.threads ≠ 0 ∧ w.vsync_enabled ≠ 0 then [t] else []

/-- The clock readings of the delivering iterations of a run, in order. -/
def deliveringReadings (w : World) : List Step → List timespec
  | [] => []
  | s :: ss =>
    match step w s with
    | .error _ => []
    | .ok w1 => deliveringNow w s ++ deliveringReadings w1 ss

/-- A run that enables vsync and iterates three times while the clock
reads the same value each time. -/
def stalledRun : List Step :=
  [ .eventControl 0 HWC_EVENT_VSYNC 1, .loopIter ⟨1, 0⟩, .loopIter ⟨1, 0⟩, .loopIter ⟨1, 0⟩ ]

/-! ## Lemmas on the classifier loop -/

theorem getElem?_setCompositionType (ls : List hwc_layer_1_t) (i j : Nat) (c : Int) :
    (setCompositionType ls i c)[j]? =
      if j = i then (ls[j]?).map (fun l => { l with compositionType := c }) else ls[j]? := by
  induction ls generalizing i j with
  | nil => simp [setCompositionType]
  | cons l ls ih =>
    cases i with
    | zero =>
      cases j with
      | zero => simp [setCompositionType]
      | succ j => simp [setCompositionType]
    | succ i =>
      cases j with
      | zero => simp [setCompositionType]
      | succ j => simp [setCompositionType, ih]

theorem length_setCompositionType (ls : List hwc_layer_1_t) (i : Nat) (c : Int) :
    (setCompositionType ls i c).length = ls.length := by
  induction ls generalizing i with
  | nil => simp [setCompositionType]
  | cons l ls ih =>
    cases i with
    | zero => simp [setCompositionType]
    | succ i => simp [setCompositionType, ih]

theorem firstBlendingNone_iff (ls : List hwc_layer_1_t) :
    firstBlendingNone ls = true ↔ ∃ l, ls[0]? = some l ∧ l.blending = HWC_BLENDING_NONE := by
  cases ls with
  | nil => simp [firstBlendingNone]
  | cons l ls => simp [firstBlendingNone]

theorem getElem?_prepare_fold (ls : List hwc_layer_1_t) (k j : Nat) :
    ((List.range k).foldl hwc_prepare_body ls)[j]? =
      if j < k then (ls[j]?).map (classify j) else ls[j]? := by
  induction k generalizing j with
  | zero => simp
  | succ k ih =>
    rw [List.range_succ, List.foldl_append, List.foldl_cons, List.foldl_nil]
    have h0 : k = 0 → List.foldl hwc_prepare_body ls (List.range k) = ls := by
      intro hk
      subst hk
      rfl
    generalize List.foldl hwc_prepare_body ls (List.range k) = x at ih h0
    unfold hwc_prepare_body
    split
    · rename_i h
      obtain ⟨hk, hfb⟩ := h
      have hx := h0 hk
      subst hk
      subst hx
      obtain ⟨l, hl, hb⟩ := (firstBlendingNone_iff x).1 hfb
      rw [getElem?_setCompositionType]
      by_cases hj : j = 0
      · subst hj
        simp [hl, classify, hb]
      · have : ¬ j < 1 := by omega
        simp [hj, this]
    · rename_i h
      rw [getElem?_setCompositionType]
      by_cases hj : j = k
      · subst hj
        have h1 : j < j + 1 := by omega
        simp only [if_true, h1, ih, lt_irrefl, if_false]
        cases hl : ls[j]? with
        | none => simp
        | some l =>
          have hne : ¬ (j = 0 ∧ l.blending = HWC_BLENDING_NONE) := by
            rintro ⟨hj0, hb⟩
            have hx := h0 hj0
            subst hj0
            subst hx
            exact h ⟨rfl, (firstBlendingNone_iff x).2 ⟨l, hl, hb⟩⟩
          simp [classify, hne]
      · simp only [hj, if_false, ih]
        by_cases hjk : j < k
        · have : j < k + 1 := by omega
          simp [hjk, this]
        · have : ¬ j < k + 1 := by omega
          simp [hjk, this]

theorem length_prepare_fold (ls : List hwc_layer_1_t) (k : Nat) :
    ((List.range k).foldl hwc_prepare_body ls).length = ls.length := by
  induction k with
  | zero => simp
  | succ k ih =>
    rw [List.range_succ, List.foldl_append, List.foldl_cons, List.foldl_nil]
    generalize List.foldl hwc_prepare_body ls (List.range k) = x at ih
    unfold hwc_prepare_body
    split <;> simp [length_setCompositionType, ih]

/-- The classifier loop in closed form: every layer is replaced by its
classification. -/
theorem hwc_prepare_loop_eq (ls : List hwc_layer_1_t) :
    hwc_prepare_loop ls = (List.range ls.length).zipWith classify ls := by
  apply List.ext_getElem?
  intro j
  unfold hwc_prepare_loop
  rw [getElem?_prepare_fold]
  by_cases hj : j < ls.length
  · simp [hj, List.getElem?_zipWith, List.getElem?_range hj, List.getElem?_eq_getElem hj]
  · have h1 : ls[j]? = none := List.getElem?_eq_none (by omega)
    simp [hj, List.getElem?_zipWith, h1]

theorem hwc_prepare_changed (dev numDisplays : Nat) (d : hwc_display_contents_1_t)
    (rest : List (Option hwc_display_contents_1_t))
    (hgeo : d.flags &&& HWC_GEOMETRY_CHANGED ≠ 0) :
    hwc_prepare dev numDisplays (some (some d :: rest)) =
      .ok (0, some (some { d with hwLayers := hwc_prepare_loop d.hwLayers } :: rest)) := by
  simp [hwc_prepare, deref0, store0, hgeo]

theorem hwc_prepare_unchanged (dev numDisplays : Nat) (d : hwc_display_contents_1_t)
    (rest : List (Option hwc_display_contents_1_t))
    (hgeo : d.flags &&& HWC_GEOMETRY_CHANGED = 0) :
    hwc_prepare dev numDisplays (some (some d :: rest)) = .ok (0, some (some d :: rest)) := by
  simp [hwc_prepare, deref0, hgeo]

theorem getElem?_hwc_prepare_loop (ls : List hwc_layer_1_t) (i : Nat) (l : hwc_layer_1_t)
    (hl : ls[i]? = some l) : (hwc_prepare_loop ls)[i]? = some (classify i l) := by
  unfold hwc_prepare_loop
  rw [getElem?_prepare_fold]
  have hi : i < ls.length := by
    by_contra hc
    rw [List.getElem?_eq_none (by omega)] at hl
    cases hl
  simp [hi, hl]

theorem length_hwc_prepare_loop (ls : List hwc_layer_1_t) :
    (hwc_prepare_loop ls).length = ls.length :=
  length_prepare_fold ls ls.length

/-! ## Claims on `hwc_prepare` -/

/-- C1 (opaque-first-layer rule). For a non-null display list whose primary
frame has `HWC_GEOMETRY_CHANGED` set, `hwc_prepare` returns 0 and leaves a
frame with the same number of layers in which layer 0 has composition type
`HWC_OVERLAY` when its blending is `HWC_BLENDING_NONE` and `HWC_FRAMEBUFFER`
when its blending is anything else, and every layer at an index above 0 has
composition type `HWC_FRAMEBUFFER`, whatever the blending and the prior
composition types. -/
theorem hwc_prepare_opaque_first_layer (dev numDisplays : Nat)
    (d : hwc_display_contents_1_t) (rest : List (Option hwc_display_contents_1_t))
    (hgeo : d.flags &&& HWC_GEOMETRY_CHANGED ≠ 0) :
    ∃ d1 : hwc_display_contents_1_t,
      hwc_prepare dev numDisplays (some (some d :: rest)) = .ok (0, some (some d1 :: rest)) ∧
      d1.hwLayers.length = d.hwLayers.length ∧
      ∀ (i : Nat) (l : hwc_layer_1_t), d.hwLayers[i]? = some l →
        ∃ l1 : hwc_layer_1_t, d1.hwLayers[i]? = some l1 ∧ l1.blending = l.blending ∧
          (i = 0 → l.blending = HWC_BLENDING_NONE → l1.compositionType = HWC_OVERLAY) ∧
          (i = 0 → l.blending ≠ HWC_BLENDING_NONE → l1.compositionType = HWC_FRAMEBUFFER) ∧
          (0 < i → l1.compositionType = HWC_FRAMEBUFFER) := by
  refine ⟨{ d with hwLayers := hwc_prepare_loop d.hwLayers },
    hwc_prepare_changed dev numDisplays d rest hgeo, length_hwc_prepare_loop d.hwLayers, ?_⟩
  intro i l hl
  refine ⟨classify i l, getElem?_hwc_prepare_loop d.hwLayers i l hl, rfl, ?_, ?_, ?_⟩
  · intro hi hb
    simp [classify, hi, hb]
  · intro _ hb
    simp [classify, hb]
  · intro hi
    have : i ≠ 0 := by omega
    simp [classify, this]

theorem hwc_prepare_opaque_first_layer_witness :
    sampleFrame.flags &&& HWC_GEOMETRY_CHANGED ≠ 0 ∧
    (∃ d1 : hwc_display_contents_1_t,
      hwc_prepare 0 1 (some (some sampleFrame :: [])) = .ok (0, some (some d1 :: [])) ∧
      d1.hwLayers.length = sampleFrame.hwLayers.length ∧
      ∀ (i : Nat) (l : hwc_layer_1_t), sampleFrame.hwLayers[i]? = some l →
        ∃ l1 : hwc_layer_1_t, d1.hwLayers[i]? = some l1 ∧ l1.blending = l.blending ∧
          (i = 0 → l.blending = HWC_BLENDING_NONE → l1.compositionType = HWC_OVERLAY) ∧
          (i = 0 → l.blending ≠ HWC_BLENDING_NONE → l1.compositionType = HWC_FRAMEBUFFER) ∧
          (0 < i → l1.compositionType = HWC_FRAMEBUFFER)) ∧
    (hwc_prepare 0 1 (some [some sampleFrame])).map
        (fun r => r.2.map (fun ds => ds.map (fun o => o.map
          (fun d => d.hwLayers.map (fun l => l.compositionType))))) =
      .ok (some [some [HWC_OVERLAY, HWC_FRAMEBUFFER, HWC_FRAMEBUFFER]]) :=
  ⟨by decide, hwc_prepare_opaque_first_layer 0 1 sampleFrame [] (by decide), rfl⟩

/-- C2 (no-op on unchanged geometry). For a frame whose
`HWC_GEOMETRY_CHANGED` bit is clear, whatever the other flag bits,
`hwc_prepare` returns 0 and leaves the whole display list, and so every
layer's composition type, exactly as it was. -/
theorem hwc_prepare_noop_unchanged_geometry (dev numDisplays : Nat)
    (d : hwc_display_contents_1_t) (rest : List (Option hwc_display_contents_1_t))
    (hgeo : d.flags &&& HWC_GEOMETRY_CHANGED = 0) :
    hwc_prepare dev numDisplays (some (some d :: rest)) = .ok (0, some (some d :: rest)) :=
  hwc_prepare_unchanged dev numDisplays d rest hgeo

theorem hwc_prepare_noop_unchanged_geometry_witness :
    ({ sampleFrame with flags := 6 } : hwc_display_contents_1_t).flags
        &&& HWC_GEOMETRY_CHANGED = 0 ∧
    hwc_prepare 0 1 (some [some { sampleFrame with flags := 6 }]) =
      .ok (0, some [some { sampleFrame with flags := 6 }]) :=
  ⟨by decide, hwc_prepare_noop_unchanged_geometry 0 1 { sampleFrame with flags := 6 } []
    (by decide)⟩

/-- C9 (the classifier mutates the disposition field only). For every
frame, geometry-changed or not, `hwc_prepare` returns 0, leaves the other
entries of the display list, the frame flags and the display/surface pair
as they were, keeps the number and order of layers, and leaves each layer's
flags, buffer handle, transform, blending, source crop and display frame
equal to their values before the call: a layer after the call is the layer
before the call with at most its composition type replaced. -/
theorem hwc_prepare_mutates_compositionType_only (dev numDisplays : Nat)
    (d : hwc_display_contents_1_t) (rest : List (Option hwc_display_contents_1_t)) :
    ∃ d1 : hwc_display_contents_1_t,
      hwc_prepare dev numDisplays (some (some d :: rest)) = .ok (0, some (some d1 :: rest)) ∧
      d1.dpy = d.dpy ∧ d1.sur = d.sur ∧ d1.flags = d.flags ∧
      d1.hwLayers.length = d.hwLayers.length ∧
      ∀ (i : Nat) (l : hwc_layer_1_t), d.hwLayers[i]? = some l →
        ∃ l1 : hwc_layer_1_t, d1.hwLayers[i]? = some l1 ∧
          l1 = { l with compositionType := l1.compositionType } ∧
          l1.flags = l.flags ∧ l1.handle = l.handle ∧ l1.transform = l.transform ∧
          l1.blending = l.blending ∧ l1.sourceCrop = l.sourceCrop ∧
          l1.displayFrame = l.displayFrame := by
  by_cases hgeo : d.flags &&& HWC_GEOMETRY_CHANGED = 0
  · refine ⟨d, hwc_prepare_unchanged dev numDisplays d rest hgeo, rfl, rfl, rfl, rfl, ?_⟩
    intro i l hl
    exact ⟨l, hl, rfl, rfl, rfl, rfl, rfl, rfl, rfl⟩
  · refine ⟨{ d with hwLayers := hwc_prepare_loop d.hwLayers },
      hwc_prepare_changed dev numDisplays d rest hgeo, rfl, rfl, rfl,
      length_hwc_prepare_loop d.hwLayers, ?_⟩
    intro i l hl
    exact ⟨classify i l, getElem?_hwc_prepare_loop d.hwLayers i l hl,
      rfl, rfl, rfl, rfl, rfl, rfl, rfl⟩

/-! ## Lemmas on the presenter loop -/

theorem length_fill (n c : Nat) (bytes : List Nat) (h : n ≤ bytes.length) :
    (List.replicate n c ++ bytes.drop n).length = bytes.length := by
  simp only [List.length_append, List.length_replicate, List.length_drop]
  omega

theorem fill_idem (n c : Nat) (bytes : List Nat) :
    List.replicate n c ++ (List.replicate n c ++ bytes.drop n).drop n =
      List.replicate n c ++ bytes.drop n := by
  congr 1
  rw [List.drop_append_of_le_length (by simp)]
  simp

theorem getElem?_fill_lt (n c : Nat) (bytes : List Nat) (j : Nat) (hj : j < n) :
    (List.replicate n c ++ bytes.drop n)[j]? = some c := by
  rw [List.getElem?_append_left (by simpa using hj)]
  simp [List.getElem?_replicate, hj]

theorem getElem?_fill_ge (n c : Nat) (bytes : List Nat) (j : Nat) (hj : n ≤ j) :
    (List.replicate n c ++ bytes.drop n)[j]? = bytes[j]? := by
  rw [List.getElem?_append_right (by simpa using hj)]
  simp only [List.length_replicate, List.getElem?_drop]
  congr 1
  omega

theorem memset_placeholder (bytes : List Nat) (h : 2000 ≤ bytes.length) :
    memset (some bytes) 0x80 2000 = .ok (placeholder bytes) := by
  unfold memset
  simp only
  rw [if_pos h]
  rfl

theorem length_placeholder (bytes : List Nat) (h : 2000 ≤ bytes.length) :
    (placeholder bytes).length = bytes.length :=
  length_fill 2000 0x80 bytes h

theorem placeholder_idem (bytes : List Nat) :
    placeholder (placeholder bytes) = placeholder bytes :=
  fill_idem 2000 0x80 bytes

/-- The surface after the first `k` iterations of the presenter loop. -/
theorem hwc_set_fold (ls : List hwc_layer_1_t) (ctx : hwc_context_t) (bytes : List Nat)
    (hlen : 2000 ≤ bytes.length) (k : Nat) (hk : k ≤ ls.length) :
    (List.range k).foldlM (hwc_set_body ls) ({ ctx with mappedAddress := some bytes }, []) =
      .ok ({ ctx with
             mappedAddress :=
               some (if (List.range k).filter (isOverlayAt ls) = [] then bytes
                     else placeholder bytes) },
           (List.range k).filter (isOverlayAt ls)) := by
  induction k with
  | zero => simp [pure, Except.pure]
  | succ k ih =>
    have hk1 : k < ls.length := by omega
    rw [List.range_succ, List.foldlM_append, ih (by omega)]
    simp only [bind, Except.bind, List.foldlM_cons, List.foldlM_nil, List.filter_append]
    unfold hwc_set_body
    rw [List.getElem?_eq_getElem hk1]
    simp only
    by_cases hov : ls[k].compositionType = HWC_OVERLAY
    · have hat : isOverlayAt ls k = true := by
        simp [isOverlayAt, List.getElem?_eq_getElem hk1, hov]
      simp only [hov, if_true, List.filter_cons, hat, List.filter_nil]
      by_cases hW : (List.range k).filter (isOverlayAt ls) = []
      · simp [hW, memset_placeholder bytes hlen, pure, Except.pure]
      · have h2 : 2000 ≤ (placeholder bytes).length := by
          rw [length_placeholder bytes hlen]; exact hlen
        simp [hW, memset_placeholder _ h2, placeholder_idem, pure, Except.pure]
    · have hat : isOverlayAt ls k = false := by
        simp [isOverlayAt, List.getElem?_eq_getElem hk1, hov]
      simp [hov, hat, pure, Except.pure]

theorem hwc_set_swap_ok (ctx : hwc_context_t) (numDisplays : Nat)
    (d : hwc_display_contents_1_t) (rest : List (Option hwc_display_contents_1_t))
    (eglSwapBuffers : Nat → Nat → Nat) (bytes : List Nat)
    (hmap : ctx.mappedAddress = some bytes) (hlen : 2000 ≤ bytes.length)
    (hswap : eglSwapBuffers d.dpy d.sur ≠ EGL_FALSE) :
    hwc_set ctx numDisplays (some (some d :: rest)) eglSwapBuffers =
      .ok { status := 0
            ctx := { ctx with
                     mappedAddress :=
                       some (if overlayIndices d.hwLayers = [] then bytes
                             else placeholder bytes) }
            displays := some (some d :: rest)
            writes := overlayIndices d.hwLayers } := by
  have hctx : ctx = { ctx with mappedAddress := some bytes } := by
    cases ctx
    simp only at hmap
    subst hmap
    rfl
  have hfold := hwc_set_fold d.hwLayers ctx bytes hlen d.hwLayers.length (le_refl _)
  rw [← hctx] at hfold
  have hs : ¬ eglSwapBuffers d.dpy d.sur = 0 := hswap
  simp only [hwc_set, deref0, hwc_set_loop, hs, if_false, hfold, overlayIndices]

theorem mem_overlayIndices (ls : List hwc_layer_1_t) (i : Nat) :
    i ∈ overlayIndices ls ↔ ∃ l, ls[i]? = some l ∧ l.compositionType = HWC_OVERLAY := by
  unfold overlayIndices isOverlayAt
  rw [List.mem_filter, List.mem_range]
  constructor
  · rintro ⟨hi, h⟩
    rw [List.getElem?_eq_getElem hi] at h
    exact ⟨ls[i], List.getElem?_eq_getElem hi, by simpa using h⟩
  · rintro ⟨l, hl, hc⟩
    have hi : i < ls.length := by
      by_contra hc2
      rw [List.getElem?_eq_none (by omega)] at hl
      cases hl
    refine ⟨hi, ?_⟩
    rw [hl]
    simpa using hc

/-! ## Claims on `hwc_set` -/

/-- C3 (presentation failure propagation). For every frame, whatever its
layers and their composition types, and every context, if `eglSwapBuffers`
reports failure (`EGL_FALSE`) on the frame's display/surface pair then
`hwc_set` returns `HWC_EGL_ERROR`, executes no placeholder write, and leaves
the context with its mapped surface, and the display list, exactly as they
were. -/
theorem hwc_set_swap_failure (ctx : hwc_context_t) (numDisplays : Nat)
    (d : hwc_display_contents_1_t) (rest : List (Option hwc_display_contents_1_t))
    (eglSwapBuffers : Nat → Nat → Nat)
    (hswap : eglSwapBuffers d.dpy d.sur = EGL_FALSE) :
    hwc_set ctx numDisplays (some (some d :: rest)) eglSwapBuffers =
      .ok { status := HWC_EGL_ERROR, ctx := ctx, displays := some (some d :: rest),
            writes := [] } := by
  have hs : eglSwapBuffers d.dpy d.sur = 0 := hswap
  simp [hwc_set, deref0, hs]

theorem hwc_set_swap_failure_witness :
    (fun _ _ => EGL_FALSE : Nat → Nat → Nat) sampleClassified.dpy sampleClassified.sur
        = EGL_FALSE ∧
    hwc_set sampleContext 1 (some (some sampleClassified :: [])) (fun _ _ => EGL_FALSE) =
      .ok { status := HWC_EGL_ERROR, ctx := sampleContext,
            displays := some (some sampleClassified :: []), writes := [] } ∧
    isOverlayAt sampleClassified.hwLayers 0 = true :=
  ⟨rfl, hwc_set_swap_failure sampleContext 1 sampleClassified [] (fun _ _ => EGL_FALSE) rfl,
    by decide⟩

/-- C4 (successful presentation). For every frame and every context whose
mapped surface has at least 2000 bytes, if `eglSwapBuffers` succeeds then
`hwc_set` returns 0 and leaves the display list unmodified; the placeholder
write is executed exactly for the indices of the layers whose composition
type is `HWC_OVERLAY`, once each, in index order; every surface byte from
offset 2000 on is unchanged and the surface keeps its length; if some layer
is `HWC_OVERLAY` the first 2000 bytes are `0x80`, and if none is the whole
surface is unchanged. Nothing else in the context changes. -/
theorem hwc_set_swap_success (ctx : hwc_context_t) (numDisplays : Nat)
    (d : hwc_display_contents_1_t) (rest : List (Option hwc_display_contents_1_t))
    (eglSwapBuffers : Nat → Nat → Nat) (bytes : List Nat)
    (hmap : ctx.mappedAddress = some bytes) (hlen : 2000 ≤ bytes.length)
    (hswap : eglSwapBuffers d.dpy d.sur ≠ EGL_FALSE) :
    ∃ (out : SetOutcome) (bytes1 : List Nat),
      hwc_set ctx numDisplays (some (some d :: rest)) eglSwapBuffers = .ok out ∧
      out.status = 0 ∧
      out.displays = some (some d :: rest) ∧
      out.writes = overlayIndices d.hwLayers ∧
      (∀ i : Nat, i ∈ out.writes ↔
        ∃ l : hwc_layer_1_t, d.hwLayers[i]? = some l ∧ l.compositionType = HWC_OVERLAY) ∧
      out.writes.Nodup ∧
      out.ctx = { ctx with mappedAddress := some bytes1 } ∧
      bytes1.length = bytes.length ∧
      (∀ j : Nat, 2000 ≤ j → bytes1[j]? = bytes[j]?) ∧
      (out.writes ≠ [] → ∀ j : Nat, j < 2000 → bytes1[j]? = some 0x80) ∧
      (out.writes = [] → bytes1 = bytes) := by
  refine ⟨_, if overlayIndices d.hwLayers = [] then bytes else placeholder bytes,
    hwc_set_swap_ok ctx numDisplays d rest eglSwapBuffers bytes hmap hlen hswap,
    rfl, rfl, rfl, mem_overlayIndices d.hwLayers, ?_, rfl, ?_, ?_, ?_, ?_⟩
  · exact List.Nodup.filter _ (List.nodup_range _)
  · split
    · rfl
    · exact length_placeholder bytes hlen
  · intro j hj
    split
    · rfl
    · exact getElem?_fill_ge 2000 0x80 bytes j hj
  · intro hne j hj
    simp only at hne
    rw [if_neg hne]
    exact getElem?_fill_lt 2000 0x80 bytes j hj
  · intro he
    simp only at he
    rw [if_pos he]

theorem hwc_set_swap_success_witness :
    sampleContext.mappedAddress = some sampleSurface ∧
    2000 ≤ sampleSurface.length ∧
    (fun _ _ => EGL_TRUE : Nat → Nat → Nat) sampleClassified.dpy sampleClassified.sur
        ≠ EGL_FALSE ∧
    sampleClassified.hwLayers.map (fun l => l.compositionType) =
      [HWC_OVERLAY, HWC_FRAMEBUFFER, HWC_FRAMEBUFFER] ∧
    overlayIndices sampleClassified.hwLayers = [0] ∧
    (∃ (out : SetOutcome) (bytes1 : List Nat),
      hwc_set sampleContext 1 (some (some sampleClassified :: [])) (fun _ _ => EGL_TRUE)
        = .ok out ∧
      out.status = 0 ∧
      out.displays = some (some sampleClassified :: []) ∧
      out.writes = overlayIndices sampleClassified.hwLayers ∧
      (∀ i : Nat, i ∈ out.writes ↔
        ∃ l : hwc_layer_1_t,
          sampleClassified.hwLayers[i]? = some l ∧ l.compositionType = HWC_OVERLAY) ∧
      out.writes.Nodup ∧
      out.ctx = { sampleContext with mappedAddress := some bytes1 } ∧
      bytes1.length = sampleSurface.length ∧
      (∀ j : Nat, 2000 ≤ j → bytes1[j]? = sampleSurface[j]?) ∧
      (out.writes ≠ [] → ∀ j : Nat, j < 2000 → bytes1[j]? = some 0x80) ∧
      (out.writes = [] → bytes1 = sampleSurface)) :=
  ⟨rfl, by unfold sampleSurface; rw [List.length_replicate]; omega, by decide, by decide, by decide,
    hwc_set_swap_success sampleContext 1 sampleClassified [] (fun _ _ => EGL_TRUE)
      sampleSurface rfl (by unfold sampleSurface; rw [List.length_replicate]; omega) (by decide)⟩

/-! ## Lemmas on the vsync generator -/

theorem threadInv_initial (ctx : hwc_context_t) : threadInv (World.initial ctx) := by
  simp [threadInv, World.initial]

theorem threadInv_eventControl (w : World) (dpy event enable : Int) (h : threadInv w) :
    threadInv (hwc_eventControl w dpy event enable).2 := by
  unfold hwc_eventControl threadInv at *
  by_cases he : event = HWC_EVENT_VSYNC
  · cases hc : w.created <;> simp_all
  · simp_all

theorem created_eventControl (w : World) (dpy event enable : Int)
    (h : w.created = true ∨ event = HWC_EVENT_VSYNC) :
    (hwc_eventControl w dpy event enable).2.created = true := by
  unfold hwc_eventControl
  by_cases he : event = HWC_EVENT_VSYNC
  · cases hc : w.created <;> simp_all
  · rcases h with h | h
    · simp_all
    · exact absurd h he

theorem status_eventControl (w : World) (dpy event enable : Int) :
    (hwc_eventControl w dpy event enable).1 = 0 := by
  unfold hwc_eventControl
  split
  · simp only
    split <;> rfl
  · rfl

theorem threadInv_eventControlCalls (w : World) (calls : List (Int × Int × Int))
    (h : threadInv w) : threadInv (eventControlCalls w calls) := by
  induction calls generalizing w with
  | nil => exact h
  | cons c cs ih =>
    exact ih _ (threadInv_eventControl w c.1 c.2.1 c.2.2 h)

theorem created_eventControlCalls (w : World) (calls : List (Int × Int × Int))
    (h : w.created = true ∨ ∃ c ∈ calls, c.2.1 = HWC_EVENT_VSYNC) :
    (eventControlCalls w calls).created = true := by
  induction calls generalizing w with
  | nil =>
    rcases h with h | ⟨c, hc, _⟩
    · exact h
    · cases hc
  | cons c cs ih =>
    apply ih
    rcases h with h | ⟨c1, hc1, hv⟩
    · exact Or.inl (created_eventControl w _ _ _ (Or.inl h))
    · rcases List.mem_cons.1 hc1 with rfl | hmem
      · exact Or.inl (created_eventControl w _ _ _ (Or.inr hv))
      · exact Or.inr ⟨c1, hmem, hv⟩

theorem eventControlStatuses_zero (w : World) (calls : List (Int × Int × Int)) :
    ∀ s ∈ eventControlStatuses w calls, s = 0 := by
  induction calls generalizing w with
  | nil => simp [eventControlStatuses]
  | cons c cs ih =>
    intro s hs
    simp only [eventControlStatuses, List.mem_cons] at hs
    rcases hs with rfl | hs
    · exact status_eventControl w _ _ _
    · exact ih _ s hs

theorem toInt64_range (x : Int) : -2 ^ 63 ≤ toInt64 x ∧ toInt64 x < 2 ^ 63 := by
  unfold toInt64
  omega

theorem toInt64_of_range (x : Int) (h1 : -2 ^ 63 ≤ x) (h2 : x < 2 ^ 63) : toInt64 x = x := by
  unfold toInt64
  omega

theorem toInt64_toUInt64 (x : Int) (h1 : -2 ^ 63 ≤ x) (h2 : x < 2 ^ 63) :
    toInt64 (toUInt64 x) = x := by
  unfold toInt64 toUInt64
  omega

/-- The timestamp handed to the callback is the value of `systemTime`: the
detour through the `uint64_t` variable `cur_timestamp` loses nothing. -/
theorem callback_timestamp (t : timespec) :
    toInt64 (toUInt64 (systemTime t)) = systemTime t := by
  have h := toInt64_range (toInt64 t.tv_sec * 1000000000 + t.tv_nsec)
  exact toInt64_toUInt64 _ h.1 h.2

theorem vsync_loop_iter_registered (w : World) (t : timespec) (p : Nat)
    (hp : w.ctx.procs = some p) :
    vsync_loop_iter w t =
      .ok { w with
            iterations := w.iterations + 1
            delivered :=
              if w.vsync_enabled ≠ 0 then
                w.delivered ++ [⟨p, HWC_DISPLAY_PRIMARY, systemTime t⟩]
              else w.delivered } := by
  unfold vsync_loop_iter
  by_cases he : w.vsync_enabled = 0
  · simp [he]
  · simp [he, hp, callback_timestamp]

theorem vsync_loop_iter_disabled (w : World) (t : timespec) (he : w.vsync_enabled = 0) :
    vsync_loop_iter w t = .ok { w with iterations := w.iterations + 1 } := by
  simp [vsync_loop_iter, he]

theorem eventControl_ctx (w : World) (dpy event enable : Int) :
    (hwc_eventControl w dpy event enable).2.ctx = w.ctx ∧
    (hwc_eventControl w dpy event enable).2.delivered = w.delivered ∧
    (hwc_eventControl w dpy event enable).2.iterations = w.iterations := by
  unfold hwc_eventControl
  split
  · simp only
    split <;> exact ⟨rfl, rfl, rfl⟩
  · exact ⟨rfl, rfl, rfl⟩

theorem eventControl_vsync_created (w : World) (dpy enable : Int) (hc : w.created = true) :
    (hwc_eventControl w dpy HWC_EVENT_VSYNC enable).2 = { w with vsync_enabled := enable } := by
  simp [hwc_eventControl, hc]

theorem eventControl_quiet (w : World) (dpy event enable : Int) (hc : w.created = true)
    (he : w.vsync_enabled = 0) (hq : ¬ (event = HWC_EVENT_VSYNC ∧ enable ≠ 0)) :
    (hwc_eventControl w dpy event enable).2 = w := by
  unfold hwc_eventControl
  by_cases hev : event = HWC_EVENT_VSYNC
  · have hen : enable = 0 := by
      by_contra hne
      exact hq ⟨hev, hne⟩
    subst hen
    cases w
    simp_all
  · simp [hev]

theorem step_registered (w : World) (s : Step) (p : Nat) (hp : w.ctx.procs = some p)
    (hinv : threadInv w) :
    ∃ w1, step w s = .ok w1 ∧ w1.ctx = w.ctx ∧ threadInv w1 := by
  cases s with
  | eventControl dpy event enable =>
    exact ⟨_, rfl, (eventControl_ctx w dpy event enable).1,
      threadInv_eventControl w dpy event enable hinv⟩
  | loopIter t =>
    by_cases hthr : w.threads = 0
    · exact ⟨w, by simp [step, hthr], rfl, hinv⟩
    · have h1 : step w (.loopIter t) = vsync_loop_iter w t := by
        simp only [step, hthr, if_false]
      rw [h1, vsync_loop_iter_registered w t p hp]
      exact ⟨_, rfl, rfl, hinv⟩

theorem run_registered (w : World) (ss : List Step) (p : Nat) (hp : w.ctx.procs = some p)
    (hinv : threadInv w) :
    ∃ w1, run w ss = .ok w1 ∧ w1.ctx = w.ctx ∧ threadInv w1 := by
  induction ss generalizing w with
  | nil => exact ⟨w, rfl, rfl, hinv⟩
  | cons s ss ih =>
    obtain ⟨w1, h1, hc1, hi1⟩ := step_registered w s p hp hinv
    obtain ⟨w2, h2, hc2, hi2⟩ := ih w1 (by rw [hc1]; exact hp) hi1
    refine ⟨w2, ?_, by rw [hc2, hc1], hi2⟩
    simp [run, h1, h2]

theorem run_quiet (w : World) (quiet : List Step) (hc : w.created = true)
    (hthr : w.threads ≠ 0) (he : w.vsync_enabled = 0)
    (hq : ∀ s ∈ quiet, s.isVsyncEnable = false) :
    run w quiet = .ok { w with iterations := w.iterations + countIter quiet } := by
  induction quiet generalizing w with
  | nil => simp [run, countIter]
  | cons s ss ih =>
    have hs := hq s (List.mem_cons_self _ _)
    have hss : ∀ s ∈ ss, s.isVsyncEnable = false :=
      fun s1 h1 => hq s1 (List.mem_cons_of_mem _ h1)
    cases s with
    | eventControl dpy event enable =>
      have hq1 : ¬ (event = HWC_EVENT_VSYNC ∧ enable ≠ 0) := by
        simpa [Step.isVsyncEnable] using hs
      simp only [run, step, eventControl_quiet w dpy event enable hc he hq1, countIter]
      exact ih w hc hthr he hss
    | loopIter t =>
      simp only [run, step, hthr, if_false, vsync_loop_iter_disabled w t he, countIter]
      have h1 := ih { w with iterations := w.iterations + 1 } hc hthr he hss
      rw [h1]
      simp only [Except.ok.injEq, World.mk.injEq, and_true, true_and]
      omega

theorem eventControl_vsync_enabled (w : World) (dpy enable : Int) :
    (hwc_eventControl w dpy HWC_EVENT_VSYNC enable).2.vsync_enabled = enable := by
  unfold hwc_eventControl
  cases hc : w.created <;> simp [hc]

theorem threads_of_created (w : World) (hinv : threadInv w) (hc : w.created = true) :
    w.threads = 1 := by
  unfold threadInv at hinv
  rw [hinv, hc]
  rfl

theorem run_enable_then_iter (w : World) (p : Nat) (hp : w.ctx.procs = some p)
    (hc : w.created = true) (hthr : w.threads = 1) (dpy enable : Int) (t : timespec)
    (hen : enable ≠ 0) :
    run w [.eventControl dpy HWC_EVENT_VSYNC enable, .loopIter t] =
      .ok { w with
            vsync_enabled := enable
            iterations := w.iterations + 1
            delivered := w.delivered ++ [⟨p, HWC_DISPLAY_PRIMARY, systemTime t⟩] } := by
  have h1 : ¬ w.threads = 0 := by omega
  have h2 := vsync_loop_iter_registered { w with vsync_enabled := enable } t p hp
  simp only [run, step, eventControl_vsync_created w dpy enable hc, h1, if_false, h2]
  simp [hen]

theorem systemTime_valid (t : timespec) (h : clockValid t) :
    systemTime t = t.tv_sec * 1000000000 + t.tv_nsec := by
  obtain ⟨h1, h2, h3, h4⟩ := h
  unfold systemTime
  have hs : toInt64 t.tv_sec = t.tv_sec := toInt64_of_range _ (by omega) (by omega)
  rw [hs]
  exact toInt64_of_range _ (by omega) (by omega)

theorem systemTime_lt (a b : timespec) (ha : clockValid a) (hb : clockValid b)
    (hlt : timespecLt a b) : systemTime a < systemTime b := by
  rw [systemTime_valid a ha, systemTime_valid b hb]
  obtain ⟨_, _, ha3, _⟩ := ha
  obtain ⟨_, hb2, _, _⟩ := hb
  rcases hlt with h | ⟨h1, h2⟩
  · omega
  · omega

theorem systemTime_le (a b : timespec) (ha : clockValid a) (hb : clockValid b)
    (hle : timespecLe a b) : systemTime a ≤ systemTime b := by
  rw [systemTime_valid a ha, systemTime_valid b hb]
  obtain ⟨_, _, ha3, _⟩ := ha
  obtain ⟨_, hb2, _, _⟩ := hb
  rcases hle with h | ⟨h1, h2⟩
  · omega
  · omega

theorem step_delivered (w w1 : World) (s : Step) (h : step w s = .ok w1) :
    w1.delivered.map (fun c => c.timestamp) =
      w.delivered.map (fun c => c.timestamp) ++ (deliveringNow w s).map systemTime := by
  cases s with
  | eventControl dpy event enable =>
    simp only [step, Except.ok.injEq] at h
    subst h
    simp [deliveringNow, (eventControl_ctx w dpy event enable).2.1]
  | loopIter t =>
    simp only [step] at h
    by_cases hthr : w.threads = 0
    · simp only [hthr, if_true, Except.ok.injEq] at h
      subst h
      simp [deliveringNow, hthr]
    · simp only [hthr, if_false] at h
      unfold vsync_loop_iter at h
      simp only at h
      by_cases he : w.vsync_enabled = 0
      · simp only [he, ne_eq, not_true_eq_false, if_false, Except.ok.injEq] at h
        subst h
        simp [deliveringNow, he]
      · simp only [ne_eq, he, not_false_eq_true, if_true] at h
        split at h
        · cases h
        · simp only [Except.ok.injEq] at h
          subst h
          simp [deliveringNow, hthr, he, callback_timestamp]

theorem deliveringNow_sublist (w : World) (s : Step) :
    (deliveringNow w s).Sublist (clockReadings [s]) := by
  cases s with
  | eventControl dpy event enable => simp [deliveringNow, clockReadings]
  | loopIter t =>
    simp only [deliveringNow, clockReadings]
    split
    · exact List.Sublist.refl _
    · exact List.nil_sublist _

theorem clockReadings_cons (s : Step) (ss : List Step) :
    clockReadings (s :: ss) = clockReadings [s] ++ clockReadings ss := by
  cases s <;> simp [clockReadings]

theorem deliveringReadings_sublist (w : World) (ss : List Step) :
    (deliveringReadings w ss).Sublist (clockReadings ss) := by
  induction ss generalizing w with
  | nil => simp [deliveringReadings]
  | cons s ss ih =>
    rw [clockReadings_cons]
    unfold deliveringReadings
    split
    · exact List.nil_sublist _
    · rename_i w1 _
      exact List.Sublist.append (deliveringNow_sublist w s) (ih w1)

theorem run_delivered (w w1 : World) (ss : List Step) (h : run w ss = .ok w1) :
    w1.delivered.map (fun c => c.timestamp) =
      w.delivered.map (fun c => c.timestamp) ++
        (deliveringReadings w ss).map systemTime := by
  induction ss generalizing w with
  | nil =>
    simp only [run, Except.ok.injEq] at h
    subst h
    simp [deliveringReadings]
  | cons s ss ih =>
    unfold run at h
    unfold deliveringReadings
    cases hstep : step w s with
    | error e =>
      rw [hstep] at h
      cases h
    | ok wm =>
      rw [hstep] at h
      simp only at h ⊢
      rw [ih wm h, step_delivered w wm s hstep, List.map_append, List.append_assoc]

/-! ## Claims on the vsync generator -/

/-- C5 (single-loop invariant). From the initial process state
(`created = false`, no loop), after any finite sequence of
`hwc_eventControl` calls with arbitrary display ids, event kinds and enable
values, the number of `pthread_create(.., vsync_loop, ..)` calls is at most
one; it is exactly one as soon as the sequence contains a vsync enable
request; once it is one, any further sequence of calls leaves it at one; and
every call returns 0. -/
theorem hwc_eventControl_single_loop (ctx : hwc_context_t)
    (calls : List (Int × Int × Int)) :
    (eventControlCalls (World.initial ctx) calls).threads ≤ 1 ∧
    ((∃ c ∈ calls, c.2.1 = HWC_EVENT_VSYNC ∧ c.2.2 ≠ 0) →
      (eventControlCalls (World.initial ctx) calls).threads = 1) ∧
    (∀ more : List (Int × Int × Int),
      (eventControlCalls (World.initial ctx) calls).threads = 1 →
      (eventControlCalls (eventControlCalls (World.initial ctx) calls) more).threads = 1) ∧
    (∀ s ∈ eventControlStatuses (World.initial ctx) calls, s = 0) := by
  have hinv := threadInv_eventControlCalls _ calls (threadInv_initial ctx)
  refine ⟨?_, ?_, ?_, eventControlStatuses_zero _ calls⟩
  · unfold threadInv at hinv
    rw [hinv]
    split <;> omega
  · rintro ⟨c, hc, hv, _⟩
    have hcr := created_eventControlCalls (World.initial ctx) calls (Or.inr ⟨c, hc, hv⟩)
    unfold threadInv at hinv
    rw [hinv, hcr]
    rfl
  · intro more h1
    have hcr : (eventControlCalls (World.initial ctx) calls).created = true := by
      unfold threadInv at hinv
      rw [hinv] at h1
      by_contra hc
      simp [hc] at h1
    have hinv2 := threadInv_eventControlCalls _ more hinv
    have hcr2 := created_eventControlCalls _ more (Or.inl hcr)
    unfold threadInv at hinv2
    rw [hinv2, hcr2]
    rfl

/-- C6 (vsync gating). With a callback table registered, one iteration of
`vsync_loop` invokes the vsync callback exactly when `vsync_enabled` is
nonzero at that iteration, passing the registered table, display id
`HWC_DISPLAY_PRIMARY` and the `systemTime` value sampled in that iteration,
and completes either way. Consequently, in every run of `hwc_eventControl`
requests and loop iterations from the initial state: after a vsync disable
request followed by any steps without a vsync enable request nothing more
is delivered, while every loop iteration among those steps still takes
place; and after a later vsync enable request the next iteration delivers
a callback with that iteration's timestamp, the number of loops started
staying at one. -/
theorem vsync_gating (ctx : hwc_context_t) (p : Nat) (hp : ctx.procs = some p) :
    (∀ (w : World) (t : timespec), w.ctx = ctx →
      (w.vsync_enabled ≠ 0 →
        vsync_loop_iter w t =
          .ok { w with
                iterations := w.iterations + 1
                delivered := w.delivered ++ [⟨p, HWC_DISPLAY_PRIMARY, systemTime t⟩] }) ∧
      (w.vsync_enabled = 0 →
        vsync_loop_iter w t = .ok { w with iterations := w.iterations + 1 })) ∧
    (∀ pre : List Step, ∃ w : World, run (World.initial ctx) pre = .ok w ∧
      ∀ (dpy : Int) (quiet : List Step), (∀ s ∈ quiet, s.isVsyncEnable = false) →
        ∃ w1 : World,
          run w (.eventControl dpy HWC_EVENT_VSYNC 0 :: quiet) = .ok w1 ∧
          w1.delivered = w.delivered ∧
          w1.iterations = w.iterations + countIter quiet ∧
          w1.threads = 1 ∧
          ∀ (dpy2 enable : Int) (t : timespec), enable ≠ 0 →
            ∃ w2 : World,
              run w1 [.eventControl dpy2 HWC_EVENT_VSYNC enable, .loopIter t] = .ok w2 ∧
              w2.delivered = w1.delivered ++ [⟨p, HWC_DISPLAY_PRIMARY, systemTime t⟩] ∧
              w2.iterations = w1.iterations + 1 ∧
              w2.threads = 1) := by
  constructor
  · intro w t hw
    have hpw : w.ctx.procs = some p := by rw [hw]; exact hp
    constructor
    · intro he
      rw [vsync_loop_iter_registered w t p hpw]
      simp [he]
    · intro he
      exact vsync_loop_iter_disabled w t he
  · intro pre
    obtain ⟨w, hrun, hctx, hinv⟩ :=
      run_registered (World.initial ctx) pre p hp (threadInv_initial ctx)
    refine ⟨w, hrun, ?_⟩
    intro dpy quiet hq
    have hcd := created_eventControl w dpy HWC_EVENT_VSYNC 0 (Or.inr rfl)
    have hid := threadInv_eventControl w dpy HWC_EVENT_VSYNC 0 hinv
    have htd := threads_of_created _ hid hcd
    have hed := eventControl_vsync_enabled w dpy 0
    obtain ⟨hxc, hxd, hxi⟩ := eventControl_ctx w dpy HWC_EVENT_VSYNC 0
    have hq1 := run_quiet (hwc_eventControl w dpy HWC_EVENT_VSYNC 0).2 quiet hcd
      (by omega) hed hq
    have hrun1 : run w (.eventControl dpy HWC_EVENT_VSYNC 0 :: quiet) =
        run (hwc_eventControl w dpy HWC_EVENT_VSYNC 0).2 quiet := by
      simp only [run, step]
    rw [hrun1, hq1]
    generalize (hwc_eventControl w dpy HWC_EVENT_VSYNC 0).2 = wd at hcd hid htd hed hxc hxd hxi
    have hpd : wd.ctx.procs = some p := by
      rw [hxc, hctx]
      exact hp
    refine ⟨{ wd with iterations := wd.iterations + countIter quiet }, rfl, hxd, ?_, htd, ?_⟩
    · simp only [hxi]
    · intro dpy2 enable t hen
      exact ⟨_, run_enable_then_iter { wd with iterations := wd.iterations + countIter quiet }
        p hpd hcd htd dpy2 enable t hen, rfl, rfl, htd⟩

theorem vsync_gating_witness :
    registeredContext.procs = some 77 ∧
    hwc_registerProcs (some sampleContext) (some 77) = some registeredContext ∧
    (run (World.initial registeredContext) sampleRun).map
        (fun w => (w.delivered, w.iterations, w.threads)) =
      .ok ([⟨77, HWC_DISPLAY_PRIMARY, 1000000000⟩, ⟨77, HWC_DISPLAY_PRIMARY, 4000000500⟩],
        4, 1) ∧
    (∀ pre : List Step, ∃ w : World, run (World.initial registeredContext) pre = .ok w ∧
      ∀ (dpy : Int) (quiet : List Step), (∀ s ∈ quiet, s.isVsyncEnable = false) →
        ∃ w1 : World,
          run w (.eventControl dpy HWC_EVENT_VSYNC 0 :: quiet) = .ok w1 ∧
          w1.delivered = w.delivered ∧
          w1.iterations = w.iterations + countIter quiet ∧
          w1.threads = 1 ∧
          ∀ (dpy2 enable : Int) (t : timespec), enable ≠ 0 →
            ∃ w2 : World,
              run w1 [.eventControl dpy2 HWC_EVENT_VSYNC enable, .loopIter t] = .ok w2 ∧
              w2.delivered = w1.delivered ++ [⟨77, HWC_DISPLAY_PRIMARY, systemTime t⟩] ∧
              w2.iterations = w1.iterations + 1 ∧
              w2.threads = 1) :=
  ⟨rfl, rfl, rfl, (vsync_gating registeredContext 77 rfl).2⟩

/-- C7 (vsync delivery before callback registration). The code faults: on
the context that `hwc_device_open` returns, whose `procs` is null because
`hwc_registerProcs` has not been called, a vsync enable request followed by
one iteration of `vsync_loop` dereferences the null callback table, for
every display id and every clock reading. -/
theorem vsync_before_registerProcs_faults :
    hwc_device_open sampleEnv 0 HWC_HARDWARE_COMPOSER none =
      .ok { status := 0, device := some openedContext,
            calls := [.malloc, .hw_get_module, .framebuffer_open, .open_fb0, .mmap] } ∧
    openedContext.procs = none ∧
    (∀ (dpy : Int) (t : timespec),
      run (World.initial openedContext) [.eventControl dpy HWC_EVENT_VSYNC 1, .loopIter t] =
        .error .nullDeref) ∧
    (∀ (dpy : Int) (t : timespec),
      (hwc_eventControl (World.initial openedContext) dpy HWC_EVENT_VSYNC 1).2.threads = 1 ∧
      vsync_loop_iter (hwc_eventControl (World.initial openedContext) dpy HWC_EVENT_VSYNC 1).2 t
        = .error .nullDeref) := by
  refine ⟨by simp [hwc_device_open, sampleEnv, openedContext, installedTable, zeroContext],
    rfl, ?_, ?_⟩
  · intro dpy t
    simp [run, step, hwc_eventControl, World.initial, vsync_loop_iter, openedContext]
  · intro dpy t
    simp [hwc_eventControl, World.initial, vsync_loop_iter, openedContext]

/-! ## Claims on `hwc_device_open` -/

/-- C8 as stated fails on the error code: for the name `gralloc`, which is
not the composer device name, `hwc_device_open` returns `-EINVAL` (-22),
which is not the "no such device" code `-ENODEV` (-19). -/
theorem hwc_device_open_wrong_name_not_ENODEV :
    "gralloc" ≠ HWC_HARDWARE_COMPOSER ∧
    hwc_device_open sampleEnv 0 "gralloc" none =
      .ok { status := -22, device := none, calls := [] } ∧
    ¬ (∃ out : OpenOutcome,
        hwc_device_open sampleEnv 0 "gralloc" none = .ok out ∧ out.status = -ENODEV) := by
  have h : hwc_device_open sampleEnv 0 "gralloc" none =
      .ok { status := -22, device := none, calls := [] } := by
    simp [hwc_device_open, HWC_HARDWARE_COMPOSER, EINVAL]
  refine ⟨by decide, h, ?_⟩
  rintro ⟨out, hout, hs⟩
  rw [h] at hout
  simp only [Except.ok.injEq] at hout
  subst hout
  simp [ENODEV] at hs

/-- C8, amended. For every requested name different from
`HWC_HARDWARE_COMPOSER`, `hwc_device_open` returns `-EINVAL`, makes no
external call (no allocation, no gralloc lookup, no framebuffer device
opened, no file opened, nothing mapped) and leaves the caller's device
output as it was. For the matching name, when `malloc` returns memory and
the gralloc module is obtained, it returns 0 and writes to the device
output a context holding this module's function table, a null `procs` and
the handles the platform returned. -/
theorem hwc_device_open_wrong_name (env : OpenEnv) (module : Nat) (name : String)
    (device : Option hwc_context_t) (hname : name ≠ HWC_HARDWARE_COMPOSER) :
    hwc_device_open env module name device =
      .ok { status := -EINVAL, device := device, calls := [] } ∧
    (∀ g : hw_module_t, env.malloc = true → env.hw_get_module.2 = some g →
      hwc_device_open env module HWC_HARDWARE_COMPOSER device =
        .ok { status := 0
              device := some
                { device := installedTable module
                  procs := none
                  gralloc := some g
                  framebuffer := env.framebuffer_open.2
                  fd := env.open_fb0
                  mappedAddress := env.mmap }
              calls := [.malloc, .hw_get_module, .framebuffer_open, .open_fb0, .mmap] }) := by
  constructor
  · simp [hwc_device_open, hname]
  · intro g hm hg
    simp [hwc_device_open, hm, hg, installedTable, zeroContext]

theorem hwc_device_open_wrong_name_witness :
    "gralloc" ≠ HWC_HARDWARE_COMPOSER ∧
    hwc_device_open sampleEnv 7 "gralloc" (some zeroContext) =
      .ok { status := -EINVAL, device := some zeroContext, calls := [] } :=
  ⟨by decide, (hwc_device_open_wrong_name sampleEnv 7 "gralloc" (some zeroContext)
    (by decide)).1⟩

end Hwcomposer
